import Mathlib

/-!
Shallow embedding of `src/contract/JSONDataImporter.sol` (the import/migration
engine of the nft_importer repository) and proofs about it.

Modelling conventions:
  * addresses, `uint256` and `uint16` values are `Nat`; the zero address is `0`
    (no arithmetic here ever approaches the word size, so no wrap is modelled);
  * `mapping(string => bool) importedTokens` is the list of tags mapped to true;
  * `mapping(address => ImportStats) importerStats` is an association list with
    the Solidity default value `⟨0,0,0⟩` for absent keys;
  * an external call that reverts with `Error(string)` is `CallResult.reverted`
    carrying the reason; per EVM semantics a reverted call leaves no state and
    no logs, so `reverted` carries no world — state written before the revert
    (e.g. the `totalFailed++` in the catch block of `importSingleTokenWithTBA`)
    is rolled back and never persists;
  * the destination registry (`IDonatableNFT`) and the nested-ownership
    registry (`IERC6551Registry`) are external collaborators whose code is not
    in the repository; they are modelled from the spec's external-interface
    contract (§6): see `mintImported` and `tbaAddress`.
-/

/-- Import statistics per actor, mirroring `struct ImportStats`. -/
structure ImportStats where
  totalImported : Nat
  totalFailed : Nat
  lastImportTime : Nat
deriving DecidableEq

/-- A token as stored in the destination registry: the arguments the source
passes to `mintImported` (recipient, metadata, royalty, SBT flag, creator,
origin tag). -/
structure MintedToken where
  owner : Nat
  metaUrl : String
  feeRate : Nat
  sbtFlag : Bool
  creator : Nat
  originalInfo : String
deriving DecidableEq

/-- Model of one destination registry (`IDonatableNFT` collaborator).
`tokens` holds index `1..length`; a `none` entry is a token whose
`_originalTokenInfo` read reverts (absent/burned).  `supplyKnown = false`
means `totalSupply()` itself reverts.  `acceptMint` decides whether
`mintImported` succeeds; on failure it reverts with `Error(mintReason)`. -/
structure NFT where
  supplyKnown : Bool
  tokens : List (Option MintedToken)
  acceptMint : Bool
  mintReason : String
deriving DecidableEq

/-- `struct ImportData` of the source. -/
structure ImportData where
  tokenURI : String
  toAddr : Nat
  creator : Nat
  isSBT : Bool
  originalTokenInfo : String
  royaltyRate : Nat
  tbaSourceToken : String
deriving DecidableEq

/-- The persisted state the importer contract can reach: the destination
registries by address, the contract's own `importedTokens` and
`importerStats` mappings, and the set of materialized nested-ownership
accounts (keys `(implementation, chainId, tokenContract, tokenId, salt)`). -/
structure World where
  nfts : List (Nat × NFT)
  imported : List String
  stats : List (Nat × ImportStats)
  tbas : List (Nat × Nat × Nat × Nat × Nat)
deriving DecidableEq

/-- Transaction environment: `msg.sender`, `address(this)`, `block.chainid`,
`block.timestamp`. -/
structure Env where
  sender : Nat
  selfAddr : Nat
  chainId : Nat
  timestamp : Nat
deriving DecidableEq

/-- The events the contract can emit. -/
inductive Event where
  | jsonDataImported (importer targetNFT newTokenId : Nat) (originalTokenInfo : String)
  | importFailed (importer : Nat) (originalTokenInfo reason : String)
  | batchImportStarted (importer targetNFT batchSize : Nat)
  | batchImportCompleted (importer targetNFT successCount failureCount : Nat)
deriving DecidableEq

/-- Outcome of an external call: commit (new world, emitted events, return
value) or revert with an `Error(string)` reason.  A revert discards all state
and logs written inside the call, hence carries neither. -/
inductive CallResult (α : Type) where
  | ok (w : World) (events : List Event) (ret : α)
  | reverted (reason : String)
deriving DecidableEq

/-- `importerStats[a]` with the Solidity mapping default. -/
def statsOf (m : List (Nat × ImportStats)) (a : Nat) : ImportStats :=
  match m with
  | [] => ⟨0, 0, 0⟩
  | p :: rest => if p.1 = a then p.2 else statsOf rest a

/-- Point update of the stats mapping. -/
def statsUpd (m : List (Nat × ImportStats)) (a : Nat) (f : ImportStats → ImportStats) :
    List (Nat × ImportStats) :=
  match m with
  | [] => [(a, f ⟨0, 0, 0⟩)]
  | p :: rest => if p.1 = a then (a, f p.2) :: rest else p :: statsUpd rest a f

/-- Lookup in the registry map; an address holding no modelled registry
behaves as one on which every external read and the mint revert. -/
def nftLookup (m : List (Nat × NFT)) (a : Nat) : NFT :=
  match m with
  | [] => ⟨false, [], false, ""⟩
  | p :: rest => if p.1 = a then p.2 else nftLookup rest a

/-- The registry deployed at address `a` in world `w`. -/
def nftAt (w : World) (a : Nat) : NFT :=
  nftLookup w.nfts a

/-- Point update of the registry map. -/
def nftUpd (m : List (Nat × NFT)) (a : Nat) (v : NFT) : List (Nat × NFT) :=
  match m with
  | [] => [(a, v)]
  | p :: rest => if p.1 = a then (a, v) :: rest else p :: nftUpd rest a v

/-- The scan loop shared by `_isTokenAlreadyImported` and
`_findTokenByTBASource`: does any readable index store `tag`?  (The source
compares `keccak256` of the bytes; hashes of byte strings agree exactly when
the strings do, so the comparison is string equality.) -/
def scanHasTag (tokens : List (Option MintedToken)) (tag : String) : Bool :=
  tokens.any (fun e =>
    match e with
    | some t => t.originalInfo == tag
    | none => false)

/-- The indexed scan of `_findTokenByTBASource`, started at `i = 1`: first
index whose readable origin tag equals `tag`, `0` when none; an index whose
read reverts is skipped. -/
def scanFindTag (i : Nat) (tokens : List (Option MintedToken)) (tag : String) : Nat :=
  match tokens with
  | [] => 0
  | e :: rest =>
    match e with
    | some t => if t.originalInfo == tag then i else scanFindTag (i + 1) rest tag
    | none => scanFindTag (i + 1) rest tag

/-- `_isTokenAlreadyImported`: scan indices `1..totalSupply`; if
`totalSupply()` cannot be read, assume not imported (source comment). -/
def isTokenAlreadyImportedIn (nft : NFT) (tag : String) : Bool :=
  if nft.supplyKnown then scanHasTag nft.tokens tag else false

/-- `_findTokenByTBASource`: first index storing the tag, `0` if not found or
if `totalSupply()` cannot be read. -/
def findTokenByTBASource (nft : NFT) (tag : String) : Nat :=
  if nft.supplyKnown then scanFindTag 1 nft.tokens tag else 0

/-- Modelled from the spec (§6, §3): the nested-ownership registry's
deterministic `deriveAddress` (`IERC6551Registry.account`).  The registry
contract itself is an external collaborator absent from the repository; the
spec requires only that the address be a pure deterministic function of the
tuple, which any injective encoding represents. -/
def tbaAddress (implementation chainId tokenContract tokenId salt : Nat) : Nat :=
  Nat.pair implementation (Nat.pair chainId (Nat.pair tokenContract (Nat.pair tokenId salt))) + 1

/-- Modelled from the spec (§4.3, §6): `IERC6551Registry.createAccount` as an
idempotent materialize: records the account key if absent and returns the
deterministic address.  Mirrors `_createTBA`, which calls it with
`chainId = block.chainid` and `salt = 0`. -/
def createTBA (w : World) (registry implementation tokenContract tokenId chainId : Nat) :
    World × Nat :=
  let key := (implementation, chainId, tokenContract, tokenId, 0)
  let w' := if w.tbas.contains key then w else { w with tbas := key :: w.tbas }
  (w', tbaAddress implementation chainId tokenContract tokenId 0)

/-- Modelled from the spec (§6): the destination registry's `mintImported`
(external collaborator): on success it appends a token storing all mint
arguments and returns the new index (`totalSupply + 1`); otherwise it reverts
with `Error(mintReason)`. -/
def mintImported (nft : NFT) (toAddr : Nat) (metaUrl : String) (feeRate : Nat) (sbtFlag : Bool)
    (creator : Nat) (originalInfo : String) : Option (NFT × Nat) :=
  if nft.acceptMint then
    some ({ nft with
            tokens := nft.tokens ++ [some ⟨toAddr, metaUrl, feeRate, sbtFlag, creator, originalInfo⟩] },
          nft.tokens.length + 1)
  else none

/-- The tail of `importSingleTokenWithTBA` from the `try mintImported` on:
on mint success mark the tag imported, bump the caller's `totalImported`, set
`lastImportTime` and return the new id; on mint failure the source increments
`totalFailed` and emits `ImportFailed`, then reverts — the revert rolls those
writes back, so the call commits nothing. -/
def mintAndCommit (env : Env) (w : World) (targetNFT mintTo : Nat) (tokenURI : String)
    (royaltyRate : Nat) (isSBT : Bool) (creator : Nat) (originalTokenInfo : String) :
    CallResult Nat :=
  match mintImported (nftAt w targetNFT) mintTo tokenURI royaltyRate isSBT creator originalTokenInfo with
  | some (nft', newTokenId) =>
    .ok { w with
          nfts := nftUpd w.nfts targetNFT nft',
          imported := originalTokenInfo :: w.imported,
          stats := statsUpd w.stats env.sender
            (fun s => { s with totalImported := s.totalImported + 1, lastImportTime := env.timestamp }) }
        [.jsonDataImported env.sender targetNFT newTokenId originalTokenInfo]
        newTokenId
  | none => .reverted ("Import failed: " ++ (nftAt w targetNFT).mintReason)

/-- `importSingleTokenWithTBA`: the single-record importer. -/
def importSingleTokenWithTBA (env : Env) (w : World) (targetNFT : Nat) (tokenURI : String)
    (toAddr creator : Nat) (isSBT : Bool) (originalTokenInfo : String) (royaltyRate : Nat)
    (tbaSourceToken : String) (registry implementation : Nat) : CallResult Nat :=
  if targetNFT = 0 then .reverted "Invalid target NFT address"
  else if tokenURI.length = 0 then .reverted "Token URI cannot be empty"
  else if toAddr = 0 then .reverted "Invalid recipient address"
  else if creator = 0 then .reverted "Invalid creator address"
  else if 100 < royaltyRate then .reverted "Royalty rate cannot exceed 100%"
  else if w.imported.contains originalTokenInfo then .reverted "Token already imported"
  else if isTokenAlreadyImportedIn (nftAt w targetNFT) originalTokenInfo then
    .reverted "Original token already exists in target NFT"
  else if 0 < tbaSourceToken.length then
    if registry = 0 then .reverted "Registry address required for TBA"
    else if implementation = 0 then .reverted "Implementation address required for TBA"
    else
      let sourceTokenId := findTokenByTBASource (nftAt w targetNFT) tbaSourceToken
      if sourceTokenId = 0 then .reverted "TBA source token not found in target NFT"
      else
        let created := createTBA w registry implementation targetNFT sourceTokenId env.chainId
        mintAndCommit env created.1 targetNFT created.2 tokenURI royaltyRate isSBT creator
          originalTokenInfo
  else
    mintAndCommit env w targetNFT toAddr tokenURI royaltyRate isSBT creator originalTokenInfo

/-- `importSingleToken` (legacy wrapper). -/
def importSingleToken (env : Env) (w : World) (targetNFT : Nat) (tokenURI : String)
    (toAddr creator : Nat) (isSBT : Bool) (originalTokenInfo : String) (royaltyRate : Nat) :
    CallResult Nat :=
  importSingleTokenWithTBA env w targetNFT tokenURI toAddr creator isSBT originalTokenInfo
    royaltyRate "" 0 0

/-- The inner self-call of the batch loop, on one `ImportData` entry.  The
source calls `this.importSingleTokenWithTBA{value: 0}(...)`, an external call,
so `msg.sender` inside it is the importer contract's own address. -/
def importSingleData (env : Env) (w : World) (targetNFT : Nat) (d : ImportData)
    (registry implementation : Nat) : CallResult Nat :=
  importSingleTokenWithTBA { env with sender := env.selfAddr } w targetNFT d.tokenURI d.toAddr
    d.creator d.isSBT d.originalTokenInfo d.royaltyRate d.tbaSourceToken registry implementation

/-- Accumulated outcome of the batch loop: final world, events emitted by the
loop, `newTokenIds` in input order, `successCount`, `failureCount`. -/
structure BatchAcc where
  world : World
  events : List Event
  ids : List Nat
  succ : Nat
  fail : Nat
deriving DecidableEq

/-- The `for` loop of `importBatchWithTBA`: each record is attempted through
the external self-call; a caught failure stores the sentinel `0`, counts one
failure and emits `ImportFailed`, and the loop continues with the state the
failed call left untouched. -/
def processImports (env : Env) (targetNFT registry implementation : Nat) (w : World) :
    List ImportData → BatchAcc
  | [] => ⟨w, [], [], 0, 0⟩
  | d :: rest =>
    match importSingleData env w targetNFT d registry implementation with
    | .ok w' evs id =>
      let acc := processImports env targetNFT registry implementation w' rest
      ⟨acc.world, evs ++ acc.events, id :: acc.ids, acc.succ + 1, acc.fail⟩
    | .reverted reason =>
      let acc := processImports env targetNFT registry implementation w rest
      ⟨acc.world, .importFailed env.sender d.originalTokenInfo reason :: acc.events,
        0 :: acc.ids, acc.succ, acc.fail + 1⟩

/-- `importBatchWithTBA`: the batch orchestrator. -/
def importBatchWithTBA (env : Env) (w : World) (targetNFT : Nat) (imports : List ImportData)
    (registry implementation : Nat) : CallResult (List Nat) :=
  if imports.length = 0 then .reverted "No imports provided"
  else if 100 < imports.length then .reverted "Batch size too large. Maximum 100 NFTs per batch"
  else
    let acc := processImports env targetNFT registry implementation w imports
    .ok acc.world
      (.batchImportStarted env.sender targetNFT imports.length ::
        (acc.events ++ [.batchImportCompleted env.sender targetNFT acc.succ acc.fail]))
      acc.ids

/-- `importBatch` (legacy wrapper). -/
def importBatch (env : Env) (w : World) (targetNFT : Nat) (imports : List ImportData) :
    CallResult (List Nat) :=
  importBatchWithTBA env w targetNFT imports 0 0

/-- `validateImportData`: the standalone pre-flight validation.  A `view`
function: it takes the state and returns only the verdict, mutating nothing. -/
def validateImportData (w : World) (targetNFT : Nat) (tokenURI : String) (toAddr creator : Nat)
    ( _isSBT : Bool) (originalTokenInfo : String) (royaltyRate : Nat) : Bool × String :=
  if targetNFT = 0 then (false, "Invalid target NFT address")
  else if tokenURI.length = 0 then (false, "Token URI cannot be empty")
  else if toAddr = 0 then (false, "Invalid recipient address")
  else if creator = 0 then (false, "Invalid creator address")
  else if 100 < royaltyRate then (false, "Royalty rate cannot exceed 100%")
  else if w.imported.contains originalTokenInfo then (false, "Token already imported")
  else if isTokenAlreadyImportedIn (nftAt w targetNFT) originalTokenInfo then
    (false, "Original token already exists in target NFT")
  else (true, "")

/-- `isTokenImported` view. -/
def isTokenImported (w : World) (originalTokenInfo : String) : Bool :=
  w.imported.contains originalTokenInfo

/-- First-failure combinator: runs an ordered list of (check, reason) pairs,
short-circuiting at the first failing check. -/
def firstFailure : List (Bool × String) → Bool × String
  | [] => (true, "")
  | c :: rest => if c.1 then firstFailure rest else (false, c.2)

/-! ## Helper lemmas -/

theorem statsOf_statsUpd_same (m : List (Nat × ImportStats)) (a : Nat)
    (f : ImportStats → ImportStats) : statsOf (statsUpd m a f) a = f (statsOf m a) := by
  induction m with
  | nil => simp [statsOf, statsUpd]
  | cons p rest ih =>
    by_cases h : p.1 = a
    · simp [statsUpd, statsOf, h]
    · simp [statsUpd, statsOf, h, ih]

theorem statsOf_statsUpd_other (m : List (Nat × ImportStats)) (a b : Nat)
    (f : ImportStats → ImportStats) (hb : b ≠ a) :
    statsOf (statsUpd m a f) b = statsOf m b := by
  induction m with
  | nil => simp [statsOf, statsUpd, Ne.symm hb]
  | cons p rest ih =>
    by_cases h : p.1 = a
    · simp [statsUpd, statsOf, h, Ne.symm hb]
    · simp [statsUpd, statsOf, h, ih]

theorem nftLookup_nftUpd_same (m : List (Nat × NFT)) (a : Nat) (v : NFT) :
    nftLookup (nftUpd m a v) a = v := by
  induction m with
  | nil => simp [nftLookup, nftUpd]
  | cons p rest ih =>
    by_cases h : p.1 = a
    · simp [nftUpd, nftLookup, h]
    · simp [nftUpd, nftLookup, h, ih]

theorem nftLookup_nftUpd_other (m : List (Nat × NFT)) (a b : Nat) (v : NFT) (hb : b ≠ a) :
    nftLookup (nftUpd m a v) b = nftLookup m b := by
  induction m with
  | nil => simp [nftLookup, nftUpd, Ne.symm hb]
  | cons p rest ih =>
    by_cases h : p.1 = a
    · simp [nftUpd, nftLookup, h, Ne.symm hb]
    · simp [nftUpd, nftLookup, h, ih]

theorem createTBA_nfts (w : World) (r i tc tk c : Nat) :
    ((createTBA w r i tc tk c).1).nfts = w.nfts := by
  simp only [createTBA]
  split <;> rfl

theorem createTBA_imported (w : World) (r i tc tk c : Nat) :
    ((createTBA w r i tc tk c).1).imported = w.imported := by
  simp only [createTBA]
  split <;> rfl

theorem createTBA_stats (w : World) (r i tc tk c : Nat) :
    ((createTBA w r i tc tk c).1).stats = w.stats := by
  simp only [createTBA]
  split <;> rfl

theorem createTBA_addr (w : World) (r i tc tk c : Nat) :
    (createTBA w r i tc tk c).2 = tbaAddress i c tc tk 0 := rfl

/-- Case equation for the mint-and-commit tail. -/
theorem mintAndCommit_eq (env : Env) (w : World) (t mintTo : Nat) (uri : String)
    (roy : Nat) (sbt : Bool) (cr : Nat) (tag : String) :
    mintAndCommit env w t mintTo uri roy sbt cr tag =
      (if (nftAt w t).acceptMint then
        .ok { w with
              nfts := nftUpd w.nfts t
                { nftAt w t with tokens := (nftAt w t).tokens ++ [some ⟨mintTo, uri, roy, sbt, cr, tag⟩] },
              imported := tag :: w.imported,
              stats := statsUpd w.stats env.sender
                (fun s => { s with totalImported := s.totalImported + 1,
                                   lastImportTime := env.timestamp }) }
            [.jsonDataImported env.sender t ((nftAt w t).tokens.length + 1) tag]
            ((nftAt w t).tokens.length + 1)
      else .reverted ("Import failed: " ++ (nftAt w t).mintReason)) := by
  by_cases h : (nftAt w t).acceptMint <;>
    simp [mintAndCommit, mintImported, h]

/-- Inversion of a committed mint tail, phrased relative to an initial world
`w` of which the actual pre-mint world `w₀` may differ only in `tbas`. -/
theorem mintAndCommit_ok_inv {env : Env} {w w₀ w' : World} {t mintTo : Nat} {uri : String}
    {roy : Nat} {sbt : Bool} {cr : Nat} {tag : String} {evs : List Event} {id : Nat}
    (h : mintAndCommit env w₀ t mintTo uri roy sbt cr tag = .ok w' evs id)
    (hn : w₀.nfts = w.nfts) (hi : w₀.imported = w.imported) (hs : w₀.stats = w.stats) :
    w'.imported = tag :: w.imported ∧
    statsOf w'.stats env.sender =
      ⟨(statsOf w.stats env.sender).totalImported + 1,
       (statsOf w.stats env.sender).totalFailed, env.timestamp⟩ ∧
    (∀ a, a ≠ env.sender → statsOf w'.stats a = statsOf w.stats a) ∧
    id = (nftAt w t).tokens.length + 1 ∧
    (nftAt w' t).tokens = (nftAt w t).tokens ++ [some ⟨mintTo, uri, roy, sbt, cr, tag⟩] := by
  rw [mintAndCommit_eq] at h
  by_cases hm : (nftAt w₀ t).acceptMint
  · rw [if_pos hm] at h
    cases h
    have hn2 : nftLookup w₀.nfts t = nftLookup w.nfts t := by rw [hn]
    refine ⟨by simp [hi], ?_, ?_, by simp [nftAt, hn2], ?_⟩
    · rw [statsOf_statsUpd_same, hs]
    · intro a ha
      rw [statsOf_statsUpd_other _ _ _ _ ha, hs]
    · simp [nftAt, nftLookup_nftUpd_same, hn2]
  · rw [if_neg hm] at h
    cases h

set_option maxHeartbeats 1000000 in
/-- Inversion of a successful `importSingleTokenWithTBA` call: all pure
argument checks passed, the tag was fresh, and the commit effects are exactly
those of the mint tail. -/
theorem importSingle_ok_inv {env : Env} {w w' : World} {t : Nat} {uri : String}
    {toAddr cr : Nat} {sbt : Bool} {tag : String} {roy : Nat} {tba : String}
    {reg impl : Nat} {evs : List Event} {id : Nat}
    (h : importSingleTokenWithTBA env w t uri toAddr cr sbt tag roy tba reg impl = .ok w' evs id) :
    t ≠ 0 ∧ uri.length ≠ 0 ∧ toAddr ≠ 0 ∧ cr ≠ 0 ∧ roy ≤ 100 ∧
    w.imported.contains tag = false ∧
    w'.imported = tag :: w.imported ∧
    statsOf w'.stats env.sender =
      ⟨(statsOf w.stats env.sender).totalImported + 1,
       (statsOf w.stats env.sender).totalFailed, env.timestamp⟩ ∧
    (∀ a, a ≠ env.sender → statsOf w'.stats a = statsOf w.stats a) ∧
    id = (nftAt w t).tokens.length + 1 ∧
    (∃ tok : MintedToken, tok.originalInfo = tag ∧
      (nftAt w' t).tokens = (nftAt w t).tokens ++ [some tok]) := by
  simp only [importSingleTokenWithTBA] at h
  by_cases h1 : t = 0
  · rw [if_pos h1] at h; cases h
  rw [if_neg h1] at h
  by_cases h2 : uri.length = 0
  · rw [if_pos h2] at h; cases h
  rw [if_neg h2] at h
  by_cases h3 : toAddr = 0
  · rw [if_pos h3] at h; cases h
  rw [if_neg h3] at h
  by_cases h4 : cr = 0
  · rw [if_pos h4] at h; cases h
  rw [if_neg h4] at h
  by_cases h5 : 100 < roy
  · rw [if_pos h5] at h; cases h
  rw [if_neg h5] at h
  by_cases h6 : w.imported.contains tag = true
  · rw [if_pos h6] at h; cases h
  rw [if_neg h6] at h
  by_cases h7 : isTokenAlreadyImportedIn (nftAt w t) tag = true
  · rw [if_pos h7] at h; cases h
  rw [if_neg h7] at h
  by_cases h8 : 0 < tba.length
  · rw [if_pos h8] at h
    by_cases h9 : reg = 0
    · rw [if_pos h9] at h; cases h
    rw [if_neg h9] at h
    by_cases h10 : impl = 0
    · rw [if_pos h10] at h; cases h
    rw [if_neg h10] at h
    by_cases h11 : findTokenByTBASource (nftAt w t) tba = 0
    · rw [if_pos h11] at h; cases h
    rw [if_neg h11] at h
    have hc := mintAndCommit_ok_inv h (createTBA_nfts ..) (createTBA_imported ..)
      (createTBA_stats ..)
    exact ⟨h1, h2, h3, h4, Nat.le_of_not_lt h5, by simpa using h6,
      hc.1, hc.2.1, hc.2.2.1, hc.2.2.2.1, ⟨_, rfl, hc.2.2.2.2⟩⟩
  · rw [if_neg h8] at h
    have hc := mintAndCommit_ok_inv h rfl rfl rfl
    exact ⟨h1, h2, h3, h4, Nat.le_of_not_lt h5, by simpa using h6,
      hc.1, hc.2.1, hc.2.2.1, hc.2.2.2.1, ⟨_, rfl, hc.2.2.2.2⟩⟩

/-- When the five pure argument checks pass but the tag is already in
`importedTokens`, the import reverts at the duplicate `require`. -/
theorem importSingle_dup_revert (env : Env) (w : World) (t : Nat) (uri : String)
    (toAddr cr : Nat) (sbt : Bool) (tag : String) (roy : Nat) (tba : String) (reg impl : Nat)
    (h1 : t ≠ 0) (h2 : uri.length ≠ 0) (h3 : toAddr ≠ 0) (h4 : cr ≠ 0) (h5 : roy ≤ 100)
    (h6 : w.imported.contains tag = true) :
    importSingleTokenWithTBA env w t uri toAddr cr sbt tag roy tba reg impl =
      .reverted "Token already imported" := by
  simp only [importSingleTokenWithTBA]
  rw [if_neg h1, if_neg h2, if_neg h3, if_neg h4, if_neg (by omega : ¬ 100 < roy), if_pos h6]

/-- C2.  Commit-or-rollback dichotomy of a single import: each call either
commits — the tag enters `importedTokens`, the caller's `totalImported` is
bumped and `lastImportTime` set (no other actor's stats move), a token with
the origin tag is appended to the target registry and its new id returned —
or it reverts, and a reverted call persists no state at all (EVM rollback,
`CallResult.reverted` carries no world). -/
theorem import_commit_or_rollback (env : Env) (w : World) (t : Nat) (uri : String)
    (toAddr cr : Nat) (sbt : Bool) (tag : String) (roy : Nat) (tba : String) (reg impl : Nat) :
    (∃ w' evs id,
      importSingleTokenWithTBA env w t uri toAddr cr sbt tag roy tba reg impl = .ok w' evs id ∧
      w'.imported = tag :: w.imported ∧
      statsOf w'.stats env.sender =
        ⟨(statsOf w.stats env.sender).totalImported + 1,
         (statsOf w.stats env.sender).totalFailed, env.timestamp⟩ ∧
      (∀ a, a ≠ env.sender → statsOf w'.stats a = statsOf w.stats a) ∧
      id = (nftAt w t).tokens.length + 1 ∧
      (∃ tok : MintedToken, tok.originalInfo = tag ∧
        (nftAt w' t).tokens = (nftAt w t).tokens ++ [some tok])) ∨
    (∃ r, importSingleTokenWithTBA env w t uri toAddr cr sbt tag roy tba reg impl = .reverted r) := by
  cases hres : importSingleTokenWithTBA env w t uri toAddr cr sbt tag roy tba reg impl with
  | ok w' evs id =>
    obtain ⟨-, -, -, -, -, -, himp, hstats, hother, hid, htok⟩ := importSingle_ok_inv hres
    exact Or.inl ⟨w', evs, id, rfl, himp, hstats, hother, hid, htok⟩
  | reverted r => exact Or.inr ⟨r, rfl⟩

/-- C1 counterexample.  A concrete valid record, imported then imported
again: the second call does revert with "Token already imported" and mints
nothing, but — the duplicate check being a `require`, whose revert rolls back
every write — the caller's `totalFailed` in the persisted state stays `0`; it
is not incremented once as the claim states. -/
theorem import_twice_totalFailed_unchanged :
    importSingleTokenWithTBA ⟨7, 99, 1, 1000⟩ ⟨[(1, ⟨true, [], true, "r"⟩)], [], [], []⟩
        1 "u" 5 6 false "c/1" 10 "" 0 0 =
      .ok ⟨[(1, ⟨true, [some ⟨5, "u", 10, false, 6, "c/1"⟩], true, "r"⟩)], ["c/1"],
           [(7, ⟨1, 0, 1000⟩)], []⟩
        [.jsonDataImported 7 1 1 "c/1"] 1 ∧
    importSingleTokenWithTBA ⟨7, 99, 1, 1000⟩
        ⟨[(1, ⟨true, [some ⟨5, "u", 10, false, 6, "c/1"⟩], true, "r"⟩)], ["c/1"],
         [(7, ⟨1, 0, 1000⟩)], []⟩
        1 "u" 5 6 false "c/1" 10 "" 0 0 =
      .reverted "Token already imported" ∧
    (statsOf [(7, ⟨1, 0, 1000⟩)] 7).totalFailed = 0 := by
  refine ⟨by decide, by decide, by decide⟩

/-- C1 (amended).  Idempotent duplicate rejection: once `import(R)` has
succeeded, importing the same record again (any sender, any time) reverts
with "Token already imported"; the revert persists nothing, so no token is
minted and — contrary to the original claim — nobody's `totalFailed` counter
changes across the two calls. -/
theorem import_duplicate_rejected (env env₂ : Env) (w w' : World) (t : Nat) (uri : String)
    (toAddr cr : Nat) (sbt : Bool) (tag : String) (roy : Nat) (tba : String) (reg impl : Nat)
    (evs : List Event) (id : Nat)
    (h : importSingleTokenWithTBA env w t uri toAddr cr sbt tag roy tba reg impl = .ok w' evs id) :
    importSingleTokenWithTBA env₂ w' t uri toAddr cr sbt tag roy tba reg impl =
      .reverted "Token already imported" ∧
    (∀ a, (statsOf w'.stats a).totalFailed = (statsOf w.stats a).totalFailed) := by
  obtain ⟨h1, h2, h3, h4, h5, -, himp, hstats, hother, -, -⟩ := importSingle_ok_inv h
  constructor
  · refine importSingle_dup_revert env₂ w' t uri toAddr cr sbt tag roy tba reg impl
      h1 h2 h3 h4 h5 ?_
    simp [himp]
  · intro a
    by_cases ha : a = env.sender
    · rw [ha, hstats]
    · rw [hother a ha]

/-- C1 witness: the amended theorem applied to the concrete scenario of the
counterexample. -/
theorem import_duplicate_rejected_witness :
    importSingleTokenWithTBA ⟨8, 99, 1, 2000⟩
        ⟨[(1, ⟨true, [some ⟨5, "u", 10, false, 6, "c/1"⟩], true, "r"⟩)], ["c/1"],
         [(7, ⟨1, 0, 1000⟩)], []⟩
        1 "u" 5 6 false "c/1" 10 "" 0 0 =
      .reverted "Token already imported" ∧
    (∀ a, (statsOf [(7, ⟨1, 0, 1000⟩)] a).totalFailed = (statsOf ([] : List (Nat × ImportStats)) a).totalFailed) :=
  import_duplicate_rejected ⟨7, 99, 1, 1000⟩ ⟨8, 99, 1, 2000⟩
    ⟨[(1, ⟨true, [], true, "r"⟩)], [], [], []⟩
    ⟨[(1, ⟨true, [some ⟨5, "u", 10, false, 6, "c/1"⟩], true, "r"⟩)], ["c/1"],
     [(7, ⟨1, 0, 1000⟩)], []⟩
    1 "u" 5 6 false "c/1" 10 "" 0 0 [.jsonDataImported 7 1 1 "c/1"] 1 (by decide)

/-- C9.  The dedup set `importedTokens` is keyed by the origin tag alone:
after a successful import of a tag into one target registry, any later import
of the same tag — in particular into a *different* destination registry —
reverts with "Token already imported" (provided it passes the pure argument
checks that precede the duplicate check). -/
theorem dedup_global_across_registries (env env₂ : Env) (w w' : World) (t : Nat) (uri : String)
    (toAddr cr : Nat) (sbt : Bool) (tag : String) (roy : Nat) (tba : String) (reg impl : Nat)
    (evs : List Event) (id : Nat) (t₂ : Nat) (uri₂ : String) (toAddr₂ cr₂ : Nat) (sbt₂ : Bool)
    (roy₂ : Nat) (tba₂ : String) (reg₂ impl₂ : Nat)
    (h : importSingleTokenWithTBA env w t uri toAddr cr sbt tag roy tba reg impl = .ok w' evs id)
    (h1 : t₂ ≠ 0) (h2 : uri₂.length ≠ 0) (h3 : toAddr₂ ≠ 0) (h4 : cr₂ ≠ 0) (h5 : roy₂ ≤ 100) :
    importSingleTokenWithTBA env₂ w' t₂ uri₂ toAddr₂ cr₂ sbt₂ tag roy₂ tba₂ reg₂ impl₂ =
      .reverted "Token already imported" := by
  obtain ⟨-, -, -, -, -, -, himp, -, -, -, -⟩ := importSingle_ok_inv h
  refine importSingle_dup_revert env₂ w' t₂ uri₂ toAddr₂ cr₂ sbt₂ tag roy₂ tba₂ reg₂ impl₂
    h1 h2 h3 h4 h5 ?_
  simp [himp]

/-- C9 witness: a tag imported into registry `1` is then rejected when
imported into the different registry `2`. -/
theorem dedup_global_across_registries_witness :
    importSingleTokenWithTBA ⟨8, 99, 1, 2000⟩
        ⟨[(1, ⟨true, [some ⟨5, "u", 10, false, 6, "c/1"⟩], true, "r"⟩), (2, ⟨true, [], true, "r"⟩)],
         ["c/1"], [(7, ⟨1, 0, 1000⟩)], []⟩
        2 "v" 5 6 false "c/1" 10 "" 0 0 =
      .reverted "Token already imported" :=
  dedup_global_across_registries ⟨7, 99, 1, 1000⟩ ⟨8, 99, 1, 2000⟩
    ⟨[(1, ⟨true, [], true, "r"⟩), (2, ⟨true, [], true, "r"⟩)], [], [], []⟩
    ⟨[(1, ⟨true, [some ⟨5, "u", 10, false, 6, "c/1"⟩], true, "r"⟩), (2, ⟨true, [], true, "r"⟩)],
     ["c/1"], [(7, ⟨1, 0, 1000⟩)], []⟩
    1 "u" 5 6 false "c/1" 10 "" 0 0 [.jsonDataImported 7 1 1 "c/1"] 1
    2 "v" 5 6 false 10 "" 0 0 (by decide)
    (by decide) (by decide) (by decide) (by decide) (by decide)

/-- C6.  `validateImportData` equals the first-failure run of its check list
in the fixed order: target non-zero, URI non-empty, recipient non-zero,
creator non-zero, royalty ≤ 100, tag not in `importedTokens`, tag not stored
in the target registry — short-circuiting at the first failing check and
returning its reason.  The function consumes the state and returns only the
verdict pair, so it mutates nothing. -/
theorem validateImportData_first_failure (w : World) (t : Nat) (uri : String) (toAddr cr : Nat)
    (sbt : Bool) (tag : String) (roy : Nat) :
    validateImportData w t uri toAddr cr sbt tag roy =
      firstFailure
        [(decide (t ≠ 0), "Invalid target NFT address"),
         (decide (uri.length ≠ 0), "Token URI cannot be empty"),
         (decide (toAddr ≠ 0), "Invalid recipient address"),
         (decide (cr ≠ 0), "Invalid creator address"),
         (decide (roy ≤ 100), "Royalty rate cannot exceed 100%"),
         (!(w.imported.contains tag), "Token already imported"),
         (!(isTokenAlreadyImportedIn (nftAt w t) tag), "Original token already exists in target NFT")] := by
  by_cases h1 : t = 0
  · simp [validateImportData, firstFailure, h1]
  by_cases h2 : uri.length = 0
  · simp [validateImportData, firstFailure, h1, h2]
  by_cases h3 : toAddr = 0
  · simp [validateImportData, firstFailure, h1, h2, h3]
  by_cases h4 : cr = 0
  · simp [validateImportData, firstFailure, h1, h2, h3, h4]
  by_cases h5 : 100 < roy
  · simp [validateImportData, firstFailure, h1, h2, h3, h4, h5, Nat.not_le.mpr h5]
  have h5' : roy ≤ 100 := Nat.le_of_not_lt h5
  by_cases h6 : w.imported.contains tag = true
  · have h6' : tag ∈ w.imported := by simpa using h6
    simp [validateImportData, firstFailure, h1, h2, h3, h4, h5, h5', h6, h6']
  have h6' : tag ∉ w.imported := by simpa using h6
  by_cases h7 : isTokenAlreadyImportedIn (nftAt w t) tag = true
  · simp [validateImportData, firstFailure, h1, h2, h3, h4, h5, h5', h6, h6', h7]
  · simp [validateImportData, firstFailure, h1, h2, h3, h4, h5, h5', h6, h6', h7]

/-- C4.  Batch size bound: the empty batch reverts with "No imports
provided", and a batch of more than 100 records reverts with the
size-too-large reason; in both cases the result is a revert, which persists
no state and emits no event — in particular no `BatchImportStarted` — and no
record is processed. -/
theorem importBatch_size_bound (env : Env) (w : World) (t reg impl : Nat) :
    importBatchWithTBA env w t [] reg impl = .reverted "No imports provided" ∧
    ∀ imports : List ImportData, 100 < imports.length →
      importBatchWithTBA env w t imports reg impl =
        .reverted "Batch size too large. Maximum 100 NFTs per batch" := by
  constructor
  · simp [importBatchWithTBA]
  · intro imports hlen
    have h0 : imports.length ≠ 0 := by omega
    simp [importBatchWithTBA, h0, hlen]

/-- C4 witness: the bound theorem at a concrete world, with a concrete
101-record batch. -/
theorem importBatch_size_bound_witness :
    importBatchWithTBA ⟨7, 99, 1, 1000⟩ ⟨[], [], [], []⟩ 1 [] 0 0 =
      .reverted "No imports provided" ∧
    importBatchWithTBA ⟨7, 99, 1, 1000⟩ ⟨[], [], [], []⟩ 1
        (List.replicate 101 ⟨"u", 5, 6, false, "x", 10, ""⟩) 0 0 =
      .reverted "Batch size too large. Maximum 100 NFTs per batch" :=
  ⟨(importBatch_size_bound ⟨7, 99, 1, 1000⟩ ⟨[], [], [], []⟩ 1 0 0).1,
   (importBatch_size_bound ⟨7, 99, 1, 1000⟩ ⟨[], [], [], []⟩ 1 0 0).2
     (List.replicate 101 ⟨"u", 5, 6, false, "x", 10, ""⟩) (by simp)⟩

/-- C8 counterexample.  A record whose `tbaSourceToken` is set but whose
`registry` is the zero address: standalone `validateImportData` answers
`(true, "")` — it takes neither the TBA source nor the registry/implementation
arguments — while the import's pre-mint phase reverts with "Registry address
required for TBA".  So validate does not agree with the import's pre-mint
validation, and a missing registry identity is not flagged by validate. -/
theorem validate_misses_tba_checks :
    validateImportData ⟨[(1, ⟨true, [some ⟨2, "p", 0, false, 3, "par"⟩], true, "m"⟩)], [], [], []⟩
        1 "u" 5 6 false "child" 10 = (true, "") ∧
    importSingleTokenWithTBA ⟨7, 99, 1, 1000⟩
        ⟨[(1, ⟨true, [some ⟨2, "p", 0, false, 3, "par"⟩], true, "m"⟩)], [], [], []⟩
        1 "u" 5 6 false "child" 10 "par" 0 77 =
      .reverted "Registry address required for TBA" := by
  refine ⟨by decide, by decide⟩

/-- C8 (amended).  For a record with no `tbaSourceToken`, the standalone
validation agrees exactly with the import's pre-mint phase: the import equals
"if validate says ok, proceed to the mint tail, else revert with validate's
reason".  The TBA preconditions (registry and implementation non-zero, parent
present) are enforced only inside the import, not by standalone validate. -/
theorem validate_agrees_import_without_tba (env : Env) (w : World) (t : Nat) (uri : String)
    (toAddr cr : Nat) (sbt : Bool) (tag : String) (roy : Nat) (reg impl : Nat) :
    importSingleTokenWithTBA env w t uri toAddr cr sbt tag roy "" reg impl =
      (if (validateImportData w t uri toAddr cr sbt tag roy).1 then
        mintAndCommit env w t toAddr uri roy sbt cr tag
      else .reverted (validateImportData w t uri toAddr cr sbt tag roy).2) := by
  by_cases h1 : t = 0
  · simp [importSingleTokenWithTBA, validateImportData, h1]
  by_cases h2 : uri.length = 0
  · simp [importSingleTokenWithTBA, validateImportData, h1, h2]
  by_cases h3 : toAddr = 0
  · simp [importSingleTokenWithTBA, validateImportData, h1, h2, h3]
  by_cases h4 : cr = 0
  · simp [importSingleTokenWithTBA, validateImportData, h1, h2, h3, h4]
  by_cases h5 : 100 < roy
  · simp [importSingleTokenWithTBA, validateImportData, h1, h2, h3, h4, h5]
  by_cases h6 : w.imported.contains tag = true
  · have h6' : tag ∈ w.imported := by simpa using h6
    simp [importSingleTokenWithTBA, validateImportData, h1, h2, h3, h4, h5, h6, h6']
  have h6' : tag ∉ w.imported := by simpa using h6
  by_cases h7 : isTokenAlreadyImportedIn (nftAt w t) tag = true
  · simp [importSingleTokenWithTBA, validateImportData, h1, h2, h3, h4, h5, h6, h6', h7]
  · simp [importSingleTokenWithTBA, validateImportData, h1, h2, h3, h4, h5, h6, h6', h7]

/-- When every pre-TBA check passes and registry/implementation are supplied,
the single import reduces to the TBA resolution step: revert if the parent
tag is not found, otherwise mint to the derived account. -/
theorem importSingle_tba_eq (env : Env) (w : World) (t : Nat) (uri : String)
    (toAddr cr : Nat) (sbt : Bool) (tag : String) (roy : Nat) (tba : String) (reg impl : Nat)
    (h1 : t ≠ 0) (h2 : uri.length ≠ 0) (h3 : toAddr ≠ 0) (h4 : cr ≠ 0) (h5 : roy ≤ 100)
    (h6 : w.imported.contains tag = false)
    (h7 : isTokenAlreadyImportedIn (nftAt w t) tag = false)
    (h8 : tba.length ≠ 0) (h9 : reg ≠ 0) (h10 : impl ≠ 0) :
    importSingleTokenWithTBA env w t uri toAddr cr sbt tag roy tba reg impl =
      (if findTokenByTBASource (nftAt w t) tba = 0 then
        CallResult.reverted "TBA source token not found in target NFT"
      else
        mintAndCommit env
          (createTBA w reg impl t (findTokenByTBASource (nftAt w t) tba) env.chainId).1 t
          (createTBA w reg impl t (findTokenByTBASource (nftAt w t) tba) env.chainId).2
          uri roy sbt cr tag) := by
  simp only [importSingleTokenWithTBA]
  rw [if_neg h1, if_neg h2, if_neg h3, if_neg h4, if_neg (by omega : ¬ 100 < roy),
    if_neg (by simpa using h6), if_neg (by simp [h7]), if_pos (Nat.pos_of_ne_zero h8),
    if_neg h9, if_neg h10]

/-- C5.  Nested-ownership recipient override: for an otherwise valid record
whose `tbaSourceToken` is set (with registry and implementation supplied), if
no token in the target registry stores that tag the import reverts with "TBA
source token not found in target NFT"; otherwise the mint proceeds with the
account derived for `(implementation, block.chainid, targetNFT, parentIndex,
salt 0)` as recipient, and on success the token stored in the registry is
owned by that derived account — not by the record's literal recipient. -/
theorem import_tba_recipient_override (env : Env) (w : World) (t : Nat) (uri : String)
    (toAddr cr : Nat) (sbt : Bool) (tag : String) (roy : Nat) (tba : String) (reg impl : Nat)
    (h1 : t ≠ 0) (h2 : uri.length ≠ 0) (h3 : toAddr ≠ 0) (h4 : cr ≠ 0) (h5 : roy ≤ 100)
    (h6 : w.imported.contains tag = false)
    (h7 : isTokenAlreadyImportedIn (nftAt w t) tag = false)
    (h8 : tba.length ≠ 0) (h9 : reg ≠ 0) (h10 : impl ≠ 0) :
    (findTokenByTBASource (nftAt w t) tba = 0 →
      importSingleTokenWithTBA env w t uri toAddr cr sbt tag roy tba reg impl =
        .reverted "TBA source token not found in target NFT") ∧
    (∀ idx, findTokenByTBASource (nftAt w t) tba = idx → idx ≠ 0 →
      importSingleTokenWithTBA env w t uri toAddr cr sbt tag roy tba reg impl =
        mintAndCommit env (createTBA w reg impl t idx env.chainId).1 t
          (tbaAddress impl env.chainId t idx 0) uri roy sbt cr tag) ∧
    (∀ w' evs id,
      importSingleTokenWithTBA env w t uri toAddr cr sbt tag roy tba reg impl = .ok w' evs id →
      (nftAt w' t).tokens = (nftAt w t).tokens ++
        [some ⟨tbaAddress impl env.chainId t (findTokenByTBASource (nftAt w t) tba) 0,
               uri, roy, sbt, cr, tag⟩]) := by
  have heq := importSingle_tba_eq env w t uri toAddr cr sbt tag roy tba reg impl
    h1 h2 h3 h4 h5 h6 h7 h8 h9 h10
  refine ⟨?_, ?_, ?_⟩
  · intro hz
    rw [heq, if_pos hz]
  · intro idx hidx hnz
    rw [heq, if_neg (hidx ▸ hnz), hidx, createTBA_addr]
  · intro w' evs id hok
    by_cases hz : findTokenByTBASource (nftAt w t) tba = 0
    · rw [heq, if_pos hz] at hok
      cases hok
    · rw [heq, if_neg hz, createTBA_addr] at hok
      have hc := mintAndCommit_ok_inv hok (createTBA_nfts ..) (createTBA_imported ..)
        (createTBA_stats ..)
      exact hc.2.2.2.2

/-- C5 witness: a parent token tagged "0xAAA/7" sits at index 1 of the target
registry; an otherwise valid child record naming it as TBA source proceeds to
mint with the derived account for `(impl 77, chain 1, registry 1, parent 1,
salt 0)` as recipient. -/
theorem import_tba_recipient_override_witness :
    importSingleTokenWithTBA ⟨7, 99, 1, 1000⟩
        ⟨[(1, ⟨true, [some ⟨2, "p", 0, false, 3, "0xAAA/7"⟩], true, "m"⟩)], [], [], []⟩
        1 "u" 5 6 false "child" 10 "0xAAA/7" 55 77 =
      mintAndCommit ⟨7, 99, 1, 1000⟩
        (createTBA ⟨[(1, ⟨true, [some ⟨2, "p", 0, false, 3, "0xAAA/7"⟩], true, "m"⟩)], [], [], []⟩
          55 77 1 1 1).1
        1 (tbaAddress 77 1 1 1 0) "u" 10 false 6 "child" :=
  (import_tba_recipient_override ⟨7, 99, 1, 1000⟩
      ⟨[(1, ⟨true, [some ⟨2, "p", 0, false, 3, "0xAAA/7"⟩], true, "m"⟩)], [], [], []⟩
      1 "u" 5 6 false "child" 10 "0xAAA/7" 55 77
      (by decide) (by decide) (by decide) (by decide) (by decide) (by decide) (by decide)
      (by decide) (by decide) (by decide)).2.1 1 (by decide) (by decide)

/-- Skipping a failing read leaves the boolean scan unchanged. -/
theorem scanHasTag_skip (l1 l2 : List (Option MintedToken)) (tag : String) :
    scanHasTag (l1 ++ none :: l2) tag = scanHasTag (l1 ++ l2) tag := by
  simp [scanHasTag, List.any_append]

/-- The indexed scan returns `0` exactly when no readable entry matches,
independently of the (positive) start index. -/
theorem scanFindTag_eq_zero (tag : String) :
    ∀ (tokens : List (Option MintedToken)) (i : Nat), 1 ≤ i →
      (scanFindTag i tokens tag = 0 ↔ scanHasTag tokens tag = false) := by
  intro tokens
  induction tokens with
  | nil => intro i hi; simp [scanFindTag, scanHasTag]
  | cons e rest ih =>
    intro i hi
    cases e with
    | some tk =>
      by_cases hm : tk.originalInfo == tag
      · simp [scanFindTag, scanHasTag, hm, Nat.one_le_iff_ne_zero.mp hi]
      · simp [scanFindTag, scanHasTag, hm, ih (i + 1) (by omega)]
    | none => simp [scanFindTag, scanHasTag, ih (i + 1) (by omega)]

/-- C7.  Fail-closed origin lookup.  (a) When `totalSupply()` cannot be read,
the duplicate-existence scan answers `false` (permissive: this check alone
never blocks an import) and parent search answers `0`; (b) under the same
condition an import that needs a TBA parent reverts hard with "TBA source
token not found in target NFT"; (c) an index whose origin-tag read fails is
skipped: removing it changes neither the duplicate scan's verdict nor whether
the parent search finds a match. -/
theorem origin_lookup_fail_closed :
    (∀ (nft : NFT) (tag : String), nft.supplyKnown = false →
      isTokenAlreadyImportedIn nft tag = false ∧ findTokenByTBASource nft tag = 0) ∧
    (∀ (env : Env) (w : World) (t : Nat) (uri : String) (toAddr cr : Nat) (sbt : Bool)
       (tag : String) (roy : Nat) (tba : String) (reg impl : Nat),
      t ≠ 0 → uri.length ≠ 0 → toAddr ≠ 0 → cr ≠ 0 → roy ≤ 100 →
      w.imported.contains tag = false →
      (nftAt w t).supplyKnown = false →
      tba.length ≠ 0 → reg ≠ 0 → impl ≠ 0 →
      importSingleTokenWithTBA env w t uri toAddr cr sbt tag roy tba reg impl =
        .reverted "TBA source token not found in target NFT") ∧
    (∀ (l1 l2 : List (Option MintedToken)) (am : Bool) (mr : String) (tag : String),
      isTokenAlreadyImportedIn ⟨true, l1 ++ none :: l2, am, mr⟩ tag =
        isTokenAlreadyImportedIn ⟨true, l1 ++ l2, am, mr⟩ tag ∧
      (findTokenByTBASource ⟨true, l1 ++ none :: l2, am, mr⟩ tag = 0 ↔
        findTokenByTBASource ⟨true, l1 ++ l2, am, mr⟩ tag = 0)) := by
  refine ⟨?_, ?_, ?_⟩
  · intro nft tag hs
    simp [isTokenAlreadyImportedIn, findTokenByTBASource, hs]
  · intro env w t uri toAddr cr sbt tag roy tba reg impl h1 h2 h3 h4 h5 h6 hs h8 h9 h10
    have h7 : isTokenAlreadyImportedIn (nftAt w t) tag = false := by
      simp [isTokenAlreadyImportedIn, hs]
    have hz : findTokenByTBASource (nftAt w t) tba = 0 := by
      simp [findTokenByTBASource, hs]
    rw [importSingle_tba_eq env w t uri toAddr cr sbt tag roy tba reg impl
      h1 h2 h3 h4 h5 h6 h7 h8 h9 h10, if_pos hz]
  · intro l1 l2 am mr tag
    constructor
    · simp [isTokenAlreadyImportedIn, scanHasTag_skip]
    · rw [findTokenByTBASource, findTokenByTBASource]
      simp only [if_pos]
      rw [scanFindTag_eq_zero tag (l1 ++ none :: l2) 1 (by omega),
        scanFindTag_eq_zero tag (l1 ++ l2) 1 (by omega), scanHasTag_skip]

/-- C7 witness: concrete instances of all three parts — an unreadable-supply
registry yields a permissive duplicate check and `0` for parent search, the
TBA import on it reverts hard, and a `none` (unreadable) entry at the head of
a token list does not change lookup outcomes. -/
theorem origin_lookup_fail_closed_witness :
    (isTokenAlreadyImportedIn ⟨false, [some ⟨2, "p", 0, false, 3, "x"⟩], true, "m"⟩ "x" = false ∧
     findTokenByTBASource ⟨false, [some ⟨2, "p", 0, false, 3, "x"⟩], true, "m"⟩ "x" = 0) ∧
    importSingleTokenWithTBA ⟨7, 99, 1, 1000⟩ ⟨[(1, ⟨false, [], true, "m"⟩)], [], [], []⟩
        1 "u" 5 6 false "c" 10 "par" 55 77 =
      .reverted "TBA source token not found in target NFT" ∧
    (isTokenAlreadyImportedIn ⟨true, [none, some ⟨2, "p", 0, false, 3, "x"⟩], true, "m"⟩ "x" =
       isTokenAlreadyImportedIn ⟨true, [some ⟨2, "p", 0, false, 3, "x"⟩], true, "m"⟩ "x" ∧
     (findTokenByTBASource ⟨true, [none, some ⟨2, "p", 0, false, 3, "x"⟩], true, "m"⟩ "x" = 0 ↔
       findTokenByTBASource ⟨true, [some ⟨2, "p", 0, false, 3, "x"⟩], true, "m"⟩ "x" = 0)) :=
  ⟨origin_lookup_fail_closed.1 ⟨false, [some ⟨2, "p", 0, false, 3, "x"⟩], true, "m"⟩ "x" rfl,
   origin_lookup_fail_closed.2.1 ⟨7, 99, 1, 1000⟩ ⟨[(1, ⟨false, [], true, "m"⟩)], [], [], []⟩
     1 "u" 5 6 false "c" 10 "par" 55 77 (by decide) (by decide) (by decide) (by decide)
     (by decide) (by decide) (by decide) (by decide) (by decide) (by decide),
   origin_lookup_fail_closed.2.2 [] [some ⟨2, "p", 0, false, 3, "x"⟩] true "m" "x"⟩

/-- Structural facts about the batch loop: one result per record, and the
success/failure counters are exactly the number of non-zero / zero entries of
the result vector (the sentinel `0` is never a real token id, since
`mintImported` returns `totalSupply + 1`). -/
theorem processImports_spec (env : Env) (t reg impl : Nat) :
    ∀ (ims : List ImportData) (w : World),
      (processImports env t reg impl w ims).ids.length = ims.length ∧
      (processImports env t reg impl w ims).succ =
        (processImports env t reg impl w ims).ids.countP (fun x => decide (x ≠ 0)) ∧
      (processImports env t reg impl w ims).fail =
        (processImports env t reg impl w ims).ids.countP (fun x => decide (x = 0)) ∧
      (processImports env t reg impl w ims).succ + (processImports env t reg impl w ims).fail =
        ims.length := by
  intro ims
  induction ims with
  | nil => intro w; refine ⟨rfl, rfl, rfl, rfl⟩
  | cons d rest ih =>
    intro w
    cases h : importSingleData env w t d reg impl with
    | ok w' evs id =>
      have hid : id ≠ 0 := by
        obtain ⟨-, -, -, -, -, -, -, -, -, hid, -⟩ := importSingle_ok_inv h
        omega
      have hr := ih w'
      simp only [processImports, h]
      refine ⟨by simp [hr.1], ?_, ?_, ?_⟩
      · simp [List.countP_cons, hid, hr.2.1]
      · simp [List.countP_cons, hid, hr.2.2.1]
      · have := hr.2.2.2
        simp only [List.length_cons]
        omega
    | reverted rsn =>
      have hr := ih w
      simp only [processImports, h]
      refine ⟨by simp [hr.1], ?_, ?_, ?_⟩
      · simp [List.countP_cons, hr.2.1]
      · simp [List.countP_cons, hr.2.2.1]
      · have := hr.2.2.2
        simp only [List.length_cons]
        omega

/-- Stats effect of the batch loop: every per-record import runs through the
external self-call, whose `msg.sender` is the importer contract itself, so
all stats mutations land on `env.selfAddr`; each success adds one to its
`totalImported`. -/
theorem processImports_stats (env : Env) (t reg impl : Nat) :
    ∀ (ims : List ImportData) (w : World),
      (∀ a, a ≠ env.selfAddr →
        statsOf (processImports env t reg impl w ims).world.stats a = statsOf w.stats a) ∧
      (statsOf (processImports env t reg impl w ims).world.stats env.selfAddr).totalImported =
        (statsOf w.stats env.selfAddr).totalImported +
          (processImports env t reg impl w ims).succ := by
  intro ims
  induction ims with
  | nil => intro w; exact ⟨fun a _ => rfl, rfl⟩
  | cons d rest ih =>
    intro w
    cases h : importSingleData env w t d reg impl with
    | ok w' evs id =>
      obtain ⟨-, -, -, -, -, -, -, hsame, hother, -, -⟩ := importSingle_ok_inv h
      have hr := ih w'
      constructor
      · intro a ha
        simp only [processImports, h]
        rw [hr.1 a ha, hother a ha]
      · simp only [processImports, h]
        rw [hr.2]
        have h2 := congrArg ImportStats.totalImported hsame
        simp at h2
        omega
    | reverted rsn =>
      have hr := ih w
      constructor
      · intro a ha
        simp only [processImports, h]
        rw [hr.1 a ha]
      · simp only [processImports, h]
        rw [hr.2]

/-- C3.  Batch isolation and aggregation: a batch within the size bound runs
the loop to completion and returns one entry per record in input order; the
success counter equals the number of non-sentinel entries, success and
failure counters sum to N, and the final `BatchImportCompleted` event carries
exactly those counters.  The last conjunct is the isolation law: when a
record fails (its self-call reverts), the loop stores the sentinel `0`,
counts one failure, emits `ImportFailed`, and processes the remaining records
from the *same* world — exactly as if the failed record had not been
attempted. -/
theorem importBatch_isolation (env : Env) (w : World) (t : Nat) (imports : List ImportData)
    (reg impl : Nat) (hne : imports.length ≠ 0) (hmax : imports.length ≤ 100) :
    importBatchWithTBA env w t imports reg impl =
      .ok (processImports env t reg impl w imports).world
        (.batchImportStarted env.sender t imports.length ::
          ((processImports env t reg impl w imports).events ++
            [.batchImportCompleted env.sender t (processImports env t reg impl w imports).succ
              (processImports env t reg impl w imports).fail]))
        (processImports env t reg impl w imports).ids ∧
    (processImports env t reg impl w imports).ids.length = imports.length ∧
    (processImports env t reg impl w imports).succ =
      (processImports env t reg impl w imports).ids.countP (fun x => decide (x ≠ 0)) ∧
    (processImports env t reg impl w imports).succ +
      (processImports env t reg impl w imports).fail = imports.length ∧
    (∀ (w₀ : World) (d : ImportData) (rest : List ImportData) (r : String),
      importSingleData env w₀ t d reg impl = .reverted r →
      processImports env t reg impl w₀ (d :: rest) =
        ⟨(processImports env t reg impl w₀ rest).world,
         .importFailed env.sender d.originalTokenInfo r ::
           (processImports env t reg impl w₀ rest).events,
         0 :: (processImports env t reg impl w₀ rest).ids,
         (processImports env t reg impl w₀ rest).succ,
         (processImports env t reg impl w₀ rest).fail + 1⟩) := by
  have hs := processImports_spec env t reg impl imports w
  refine ⟨?_, hs.1, hs.2.1, hs.2.2.2, ?_⟩
  · simp only [importBatchWithTBA]
    rw [if_neg hne, if_neg (by omega : ¬ 100 < imports.length)]
  · intro w₀ d rest r hf
    simp only [processImports, hf]

/-- C3 witness: a three-record batch whose middle record is invalid (empty
metadata URI) returns `[1, 0, 2]` — three results in order, sentinel `0` for
the failed record, the third record minted as if the second did not exist —
and the completed event reports 2 successes and 1 failure. -/
theorem importBatch_isolation_witness :
    importBatchWithTBA ⟨7, 99, 1, 1000⟩ ⟨[(1, ⟨true, [], true, "r"⟩)], [], [], []⟩ 1
        [⟨"u1", 5, 6, false, "a/1", 10, ""⟩, ⟨"", 5, 6, false, "a/2", 10, ""⟩,
         ⟨"u3", 5, 6, false, "a/3", 10, ""⟩] 0 0 =
      .ok ⟨[(1, ⟨true, [some ⟨5, "u1", 10, false, 6, "a/1"⟩, some ⟨5, "u3", 10, false, 6, "a/3"⟩],
               true, "r"⟩)],
           ["a/3", "a/1"], [(99, ⟨2, 0, 1000⟩)], []⟩
        [.batchImportStarted 7 1 3, .jsonDataImported 99 1 1 "a/1",
         .importFailed 7 "a/2" "Token URI cannot be empty", .jsonDataImported 99 1 2 "a/3",
         .batchImportCompleted 7 1 2 1]
        [1, 0, 2] :=
  (importBatch_isolation ⟨7, 99, 1, 1000⟩ ⟨[(1, ⟨true, [], true, "r"⟩)], [], [], []⟩ 1
    [⟨"u1", 5, 6, false, "a/1", 10, ""⟩, ⟨"", 5, 6, false, "a/2", 10, ""⟩,
     ⟨"u3", 5, 6, false, "a/3", 10, ""⟩] 0 0 (by decide) (by decide)).1

/-- C10.  Batch stats attribution: each record of a batch is imported through
the external self-call, whose `msg.sender` is the importer contract itself;
hence after a committed batch no actor other than the contract's own address
has changed stats, and the contract address's `totalImported` grew by exactly
the number of successful (non-sentinel) entries — the submitting actor is
credited nothing. -/
theorem batch_stats_credit_contract (env : Env) (w : World) (t : Nat)
    (imports : List ImportData) (reg impl : Nat) (wf : World) (evs : List Event)
    (ids : List Nat)
    (h : importBatchWithTBA env w t imports reg impl = .ok wf evs ids) :
    (∀ a, a ≠ env.selfAddr → statsOf wf.stats a = statsOf w.stats a) ∧
    (statsOf wf.stats env.selfAddr).totalImported =
      (statsOf w.stats env.selfAddr).totalImported +
        ids.countP (fun x => decide (x ≠ 0)) := by
  simp only [importBatchWithTBA] at h
  by_cases h0 : imports.length = 0
  · rw [if_pos h0] at h; cases h
  rw [if_neg h0] at h
  by_cases hmax : 100 < imports.length
  · rw [if_pos hmax] at h; cases h
  rw [if_neg hmax] at h
  cases h
  have hst := processImports_stats env t reg impl imports w
  have hsp := processImports_spec env t reg impl imports w
  exact ⟨hst.1, by rw [hst.2, hsp.2.1]⟩

/-- C10 witness: a single-record batch submitted by actor `7` with the
contract at address `99`: actor `7`'s stats are untouched and address `99`
is credited the one success. -/
theorem batch_stats_credit_contract_witness :
    (∀ a, a ≠ 99 →
      statsOf [(99, ⟨1, 0, 1000⟩)] a = statsOf ([] : List (Nat × ImportStats)) a) ∧
    (statsOf [(99, ⟨1, 0, 1000⟩)] 99).totalImported =
      (statsOf ([] : List (Nat × ImportStats)) 99).totalImported +
        [1].countP (fun x => decide (x ≠ 0)) :=
  batch_stats_credit_contract ⟨7, 99, 1, 1000⟩ ⟨[(1, ⟨true, [], true, "r"⟩)], [], [], []⟩ 1
    [⟨"u", 5, 6, false, "c/1", 10, ""⟩] 0 0
    ⟨[(1, ⟨true, [some ⟨5, "u", 10, false, 6, "c/1"⟩], true, "r"⟩)], ["c/1"],
     [(99, ⟨1, 0, 1000⟩)], []⟩
    [.batchImportStarted 7 1 1, .jsonDataImported 99 1 1 "c/1", .batchImportCompleted 7 1 1 0]
    [1] (by decide)
